import Mathlib

/-!
Verification of `torch/csrc/jit/backends/backend_debug_handler.h`.

The header declares the debug-handle machinery: `BackendDebugInfoRecorder`
(a per-session map `handles_to_inlined_callstack_ptrs_` plus the process-wide
static atomic counter `unique_debug_handle_`), the scoped guard
`WithBackendDebugInfoRecorder` over a thread-local active-recorder slot, and
the free accessor `getBackendDebugInfoRecorder`.  The member-function bodies
live in a translation unit that is not part of the source tree, so they are
modelled from the specification, as marked on each definition below.

Machine integers: `unique_debug_handle_` is a 64-bit (`int64_t`) counter.  We
model its bit pattern as a `Nat` reduced modulo `2^64` and interpret returned
handles through `toInt64`, the two's-complement reading of that pattern.
Thread-local state is modelled by indexing the per-context slot with an
explicit execution-context identifier.
-/

set_option autoImplicit false

namespace TorchJit

/-- The modulus of the 64-bit counter, `2^64`. -/
def two64 : Nat := 18446744073709551616

/-- The magnitude of the smallest `int64_t`, `2^63`. -/
def two63 : Nat := 9223372036854775808

/-- Two's-complement interpretation of a 64-bit bit pattern as an `int64_t` value. -/
def toInt64 (n : Nat) : Int :=
  if n % two64 < two63 then (n % two64 : Int) else (n % two64 : Int) - (two64 : Int)

/-- Source ranges are opaque to this core (constructed by the graph); modelled by identity. -/
structure SourceRange where
  srId : Nat
deriving DecidableEq

/-- `DebugInfoPair = {source range, inlined callstack ptr}` (header comment, line 16).
The inlined call-stack structure is opaque and borrowed; we model the reference by an
identifier, with `none` the explicit null/empty `InlinedCallStackPtr` marker. -/
structure DebugInfoPair where
  source_range : SourceRange
  inlined_callstack : Option Nat
deriving DecidableEq

/-- `using DebugHandleType = int64_t;` (line 112): handle values are `int64_t`. -/
abbrev DebugHandleType := Int

/-- `using BackendDebugInfoMapType = std::unordered_map<DebugHandleType, DebugInfoPair>;`
(lines 114-115), modelled as an association list with unique keys maintained by
insert-or-assign. -/
abbrev BackendDebugInfoMapType := List (DebugHandleType × DebugInfoPair)

/-- The key set of a debug-info map. -/
def keys (m : BackendDebugInfoMapType) : List DebugHandleType := m.map Prod.fst

/-- Lookup in a debug-info map. -/
def lookup : BackendDebugInfoMapType → DebugHandleType → Option DebugInfoPair
  | [], _ => none
  | (k', v) :: rest, k => if k' = k then some v else lookup rest k

/-- `unordered_map` insert-or-assign (`operator[]` followed by assignment). -/
def insertOrAssign : BackendDebugInfoMapType → DebugHandleType → DebugInfoPair →
    BackendDebugInfoMapType
  | [], k, v => [(k, v)]
  | (k', v') :: rest, k, v =>
    if k' = k then (k, v) :: rest else (k', v') :: insertOrAssign rest k v

/-- The slice of `torch::jit::Node` this core reads: `node->sourceRange()` and the optional
`node->callstack()` association. -/
structure Node where
  source_range : SourceRange
  callstack : Option Nat
deriving DecidableEq

/-- `BackendDebugInfoRecorder` instance state (line 137): its private map
`handles_to_inlined_callstack_ptrs_`.  (The counter `unique_debug_handle_` is `static`,
hence part of the global state, not of the instance.) -/
structure BackendDebugInfoRecorder where
  handles_to_inlined_callstack_ptrs_ : BackendDebugInfoMapType
deriving DecidableEq

/-- Identity of a recorder instance. -/
abbrev RecorderId := Nat

/-- Identity of an execution context (thread). -/
abbrev CtxId := Nat

/-- Global system state: the single process-wide static atomic counter
`unique_debug_handle_` (line 136, shared by all recorders), the map of every live recorder
instance, and each execution context's thread-local active-recorder slot. -/
structure SysState where
  unique_debug_handle_ : Nat
  recorders : RecorderId → BackendDebugInfoRecorder
  slot : CtxId → Option RecorderId

/-- Pointwise update of a `Nat`-indexed family. -/
def upd {α : Type} (f : Nat → α) (k : Nat) (v : α) : Nat → α :=
  fun k' => if k' = k then v else f k'

/-- The initial state: counter at 0, every recorder's map empty
(`BackendDebugInfoRecorder() = default`, line 127), no active recorder on any context. -/
def initState : SysState where
  unique_debug_handle_ := 0
  recorders := fun _ => ⟨[]⟩
  slot := fun _ => none

/-- Modelled from the spec: the body of `BackendDebugInfoRecorder::getNextDebugHandle`
(declared at backend_debug_handler.h:129; its translation unit is missing from the source
tree).  Per spec sections 4.1 and 4.2 it reads the node's source location and optional
inlined call-stack reference (an absent association is stored as the explicit empty
marker), obtains a fresh handle by an atomic fetch-and-add on the shared wrapping 64-bit
counter, inserts `(handle, (source_location, call_stack_ref))` into this recorder's own
map, and returns the handle. -/
def getNextDebugHandle (s : SysState) (r : RecorderId) (node : Node) :
    DebugHandleType × SysState :=
  let cs_ptr : Option Nat := node.callstack
  let debug_handle : DebugHandleType := toInt64 s.unique_debug_handle_
  (debug_handle,
   { s with
     recorders := upd s.recorders r
       ⟨insertOrAssign (s.recorders r).handles_to_inlined_callstack_ptrs_ debug_handle
         ⟨node.source_range, cs_ptr⟩⟩,
     unique_debug_handle_ := (s.unique_debug_handle_ + 1) % two64 })

/-- A per-entry finalizer: spec section 4.2 says the work of finalizing the debug info of a
recorded entry (e.g. resolving deferred call-stack references) can itself fail; its content
is an external collaborator, so it is a parameter of the model. -/
abbrev Finalizer := DebugHandleType × DebugInfoPair → Except String Unit

/-- Runs the finalizer over every recorded entry, propagating the first failure. -/
def finalizeAll (f : Finalizer) : BackendDebugInfoMapType → Except String Unit
  | [] => Except.ok ()
  | p :: ps =>
    match f p with
    | Except.ok _ => finalizeAll f ps
    | Except.error e => Except.error e

/-- Modelled from the spec: the body of `BackendDebugInfoRecorder::stopRecording` (declared
at backend_debug_handler.h:133; its translation unit is missing from the source tree).
Per spec section 4.2 it performs the fallible finalization of every recorded entry and,
when all succeed, returns the accumulated map, transferring ownership to the caller; any
finalization failure propagates to the caller as the error, never absorbed.  It is an
explicit call, deliberately not the destructor (header comment, lines 130-132). -/
def stopRecording (f : Finalizer) (recorder : BackendDebugInfoRecorder) :
    Except String BackendDebugInfoMapType :=
  match finalizeAll f recorder.handles_to_inlined_callstack_ptrs_ with
  | Except.ok _ => Except.ok recorder.handles_to_inlined_callstack_ptrs_
  | Except.error e => Except.error e

/-- The guard object `WithBackendDebugInfoRecorder` (lines 140-144).  Modelled from the
spec (section 4.3): construction saves the reference previously occupying the calling
context's slot, so the guard value carries that saved reference. -/
structure WithBackendDebugInfoRecorder where
  saved : Option RecorderId
deriving DecidableEq

/-- Modelled from the spec: the guard constructor (declared `throw()`, i.e. non-throwing,
at backend_debug_handler.h:142; body missing from the source tree).  Per spec section 4.3
it saves whatever reference currently occupies the calling context's thread-local slot and
installs the given recorder as current; it is total, with no failure outcome. -/
def guardConstruct (s : SysState) (ctx : CtxId) (r : RecorderId) :
    WithBackendDebugInfoRecorder × SysState :=
  (⟨s.slot ctx⟩, { s with slot := upd s.slot ctx (some r) })

/-- Modelled from the spec: the guard destructor (declared at backend_debug_handler.h:143;
body missing from the source tree).  Per spec section 4.3 it restores the previously saved
reference, undoing exactly this guard's installation. -/
def guardDestruct (s : SysState) (ctx : CtxId) (g : WithBackendDebugInfoRecorder) :
    SysState :=
  { s with slot := upd s.slot ctx g.saved }

/-- Modelled from the spec: `getBackendDebugInfoRecorder` (declared at
backend_debug_handler.h:146; body missing from the source tree).  Per spec section 4.4 it
returns the recorder currently installed in the calling context's thread-local slot, or
`none` when no guard is active. -/
def getBackendDebugInfoRecorder (s : SysState) (ctx : CtxId) : Option RecorderId :=
  s.slot ctx

/-- Runs a sequence of issuance calls, each naming the recorder instance it is made on,
returning the list of issued handles and the final state. -/
def runIssues (s : SysState) : List (RecorderId × Node) → List DebugHandleType × SysState
  | [] => ([], s)
  | (r, n) :: ops =>
    let p := getNextDebugHandle s r n
    let rest := runIssues p.2 ops
    (p.1 :: rest.1, rest.2)

/-- The handles produced by `k` consecutive counter fetches starting from bit pattern `c`. -/
def handlesFrom : Nat → Nat → List DebugHandleType
  | _, 0 => []
  | c, k + 1 => toInt64 c :: handlesFrom ((c + 1) % two64) k

/-- The entries accumulated in recorder `r`'s map by a sequence of issuance calls starting
at counter bit pattern `c`. -/
def entriesFor (r : RecorderId) : Nat → List (RecorderId × Node) → BackendDebugInfoMapType
  | _, [] => []
  | c, (r', n) :: ops =>
    if r' = r then
      (toInt64 c, ⟨n.source_range, n.callstack⟩) :: entriesFor r ((c + 1) % two64) ops
    else
      entriesFor r ((c + 1) % two64) ops

/-- Of the handles `hs` returned (positionally) by the issuance calls `ops`, those returned
by the calls made on recorder `r`. -/
def handlesOn (r : RecorderId) :
    List (RecorderId × Node) → List DebugHandleType → List DebugHandleType
  | [], _ => []
  | _ :: _, [] => []
  | (r', _) :: ops, h :: hs =>
    if r' = r then h :: handlesOn r ops hs else handlesOn r ops hs

/-- A single lowering session: recorder `r` issues handles for the nodes `ns`, in order,
starting from the initial state. -/
def singleSession (r : RecorderId) (ns : List Node) : List DebugHandleType × SysState :=
  runIssues initState (ns.map fun n => (r, n))

/-! ### Helper lemmas -/

theorem toInt64_inj {a b : Nat} (ha : a < two64) (hb : b < two64)
    (h : toInt64 a = toInt64 b) : a = b := by
  unfold toInt64 at h
  rw [Nat.mod_eq_of_lt ha, Nat.mod_eq_of_lt hb] at h
  simp only [two63, two64] at h ha hb
  split at h <;> split at h <;> omega

theorem handlesFrom_length (c k : Nat) : (handlesFrom c k).length = k := by
  induction k generalizing c with
  | zero => rfl
  | succ k ih => simp [handlesFrom, ih]

theorem handlesFrom_eq_map {c k : Nat} (h : c + k ≤ two64) :
    handlesFrom c k = (List.range k).map (fun i => toInt64 (c + i)) := by
  induction k generalizing c with
  | zero => simp [handlesFrom]
  | succ k ih =>
    rw [handlesFrom, List.range_succ_eq_map, List.map_cons, List.map_map]
    congr 1
    rcases Nat.eq_zero_or_pos k with hk | hk
    · subst hk; simp [handlesFrom]
    · have hc : c + 1 < two64 := by omega
      rw [Nat.mod_eq_of_lt hc, ih (by omega)]
      congr 1
      funext i
      simp only [Function.comp]
      congr 1
      omega

theorem handlesFrom_nodup {c k : Nat} (h : c + k ≤ two64) :
    (handlesFrom c k).Nodup := by
  rw [handlesFrom_eq_map h]
  refine List.Nodup.map_on ?_ (List.nodup_range k)
  intro i hi j hj hij
  rw [List.mem_range] at hi hj
  have := toInt64_inj (a := c + i) (b := c + j) (by omega) (by omega) hij
  omega

theorem keys_append (m m' : BackendDebugInfoMapType) :
    keys (m ++ m') = keys m ++ keys m' := by
  simp [keys]

theorem insertOrAssign_of_not_mem {m : BackendDebugInfoMapType} {k : DebugHandleType}
    (v : DebugInfoPair) (h : k ∉ keys m) : insertOrAssign m k v = m ++ [(k, v)] := by
  induction m with
  | nil => rfl
  | cons p rest ih =>
    obtain ⟨k', v'⟩ := p
    simp only [keys, List.map_cons, List.mem_cons] at h
    push_neg at h
    rw [insertOrAssign, if_neg (fun hk => h.1 hk.symm), ih h.2]
    rfl

theorem lookup_insertOrAssign_self (m : BackendDebugInfoMapType) (k : DebugHandleType)
    (v : DebugInfoPair) : lookup (insertOrAssign m k v) k = some v := by
  induction m with
  | nil => simp [insertOrAssign, lookup]
  | cons p rest ih =>
    obtain ⟨k', v'⟩ := p
    by_cases hk : k' = k
    · subst hk; simp [insertOrAssign, lookup]
    · simp [insertOrAssign, lookup, hk, ih]

theorem finalizeAll_ok (f : Finalizer) {m : BackendDebugInfoMapType}
    (h : ∀ p ∈ m, f p = Except.ok ()) : finalizeAll f m = Except.ok () := by
  induction m with
  | nil => rfl
  | cons p ps ih =>
    rw [finalizeAll, h p (by simp)]
    exact ih (fun q hq => h q (by simp [hq]))

theorem finalizeAll_error_mem (f : Finalizer) {m : BackendDebugInfoMapType}
    {e : String} (h : finalizeAll f m = Except.error e) :
    ∃ p ∈ m, f p = Except.error e := by
  induction m with
  | nil => simp [finalizeAll] at h
  | cons p ps ih =>
    rw [finalizeAll] at h
    cases hf : f p with
    | ok u =>
      rw [hf] at h
      obtain ⟨q, hq, hqe⟩ := ih h
      exact ⟨q, by simp [hq], hqe⟩
    | error e' =>
      rw [hf] at h
      simp only [Except.error.injEq] at h
      subst h
      exact ⟨p, by simp, hf⟩

theorem finalizeAll_error_of_exists (f : Finalizer) {m : BackendDebugInfoMapType}
    (h : ∃ p ∈ m, ∃ e, f p = Except.error e) :
    ∃ e, finalizeAll f m = Except.error e := by
  induction m with
  | nil => simp at h
  | cons p ps ih =>
    rw [finalizeAll]
    cases hf : f p with
    | error e2 =>
      exact ⟨e2, rfl⟩
    | ok u =>
      obtain ⟨q, hq, e, hqe⟩ := h
      rcases List.mem_cons.mp hq with rfl | hq'
      · rw [hf] at hqe
        simp at hqe
      · exact ih ⟨q, hq', e, hqe⟩

theorem runIssues_fst (ops : List (RecorderId × Node)) :
    ∀ s : SysState, (runIssues s ops).1 = handlesFrom s.unique_debug_handle_ ops.length := by
  induction ops with
  | nil => intro s; rfl
  | cons op ops ih =>
    intro s
    obtain ⟨r, n⟩ := op
    simp [runIssues, handlesFrom, getNextDebugHandle, ih]

theorem upd_same {α : Type} (f : Nat → α) (k : Nat) (v : α) : upd f k v k = v := by
  simp [upd]

theorem upd_ne {α : Type} (f : Nat → α) (k k' : Nat) (v : α) (h : k' ≠ k) :
    upd f k v k' = f k' := by
  simp [upd, h]

theorem handlesOn_entriesFor (r : RecorderId) (ops : List (RecorderId × Node)) :
    ∀ c, handlesOn r ops (handlesFrom c ops.length) = keys (entriesFor r c ops) := by
  induction ops with
  | nil => intro c; rfl
  | cons op ops ih =>
    intro c
    obtain ⟨r', n⟩ := op
    by_cases hr : r' = r <;> simp [handlesOn, handlesFrom, entriesFor, keys, hr, ih]

theorem entriesFor_keys_sublist (r : RecorderId) (ops : List (RecorderId × Node)) :
    ∀ c, List.Sublist (keys (entriesFor r c ops)) (handlesFrom c ops.length) := by
  induction ops with
  | nil => intro c; simp [entriesFor, handlesFrom, keys]
  | cons op ops ih =>
    intro c
    obtain ⟨r', n⟩ := op
    by_cases hr : r' = r
    · subst hr
      simpa [entriesFor, handlesFrom, keys] using
        List.Sublist.cons₂ (toInt64 c) (ih ((c + 1) % two64))
    · simpa [entriesFor, handlesFrom, keys, hr] using
        List.Sublist.cons (toInt64 c) (ih ((c + 1) % two64))

theorem entriesFor_single (r : RecorderId) (ns : List Node) :
    ∀ c : Nat, entriesFor r c (ns.map fun n => (r, n))
      = (handlesFrom c ns.length).zip
          (ns.map fun n => (⟨n.source_range, n.callstack⟩ : DebugInfoPair)) := by
  induction ns with
  | nil => intro c; rfl
  | cons n ns ih => intro c; simp [entriesFor, handlesFrom, ih]

theorem runIssues_map (r : RecorderId) (ops : List (RecorderId × Node)) :
    ∀ s : SysState,
      (∀ h ∈ handlesFrom s.unique_debug_handle_ ops.length,
          h ∉ keys (s.recorders r).handles_to_inlined_callstack_ptrs_) →
      (handlesFrom s.unique_debug_handle_ ops.length).Nodup →
      ((runIssues s ops).2.recorders r).handles_to_inlined_callstack_ptrs_
        = (s.recorders r).handles_to_inlined_callstack_ptrs_
            ++ entriesFor r s.unique_debug_handle_ ops := by
  induction ops with
  | nil => intro s _ _; simp [runIssues, entriesFor]
  | cons op ops ih =>
    intro s hfresh hnodup
    obtain ⟨r', n⟩ := op
    simp only [List.length_cons, handlesFrom] at hfresh hnodup
    rw [List.nodup_cons] at hnodup
    show ((runIssues (getNextDebugHandle s r' n).2 ops).2.recorders r).handles_to_inlined_callstack_ptrs_ = _
    set s' := (getNextDebugHandle s r' n).2 with hs'
    have hc : s'.unique_debug_handle_ = (s.unique_debug_handle_ + 1) % two64 := rfl
    by_cases hr : r' = r
    · subst hr
      have hmem : toInt64 s.unique_debug_handle_
          ∉ keys (s.recorders r').handles_to_inlined_callstack_ptrs_ :=
        hfresh _ (List.mem_cons_self _ _)
      have hins : (s'.recorders r').handles_to_inlined_callstack_ptrs_
          = (s.recorders r').handles_to_inlined_callstack_ptrs_
              ++ [(toInt64 s.unique_debug_handle_,
                   ⟨n.source_range, n.callstack⟩)] := by
        have hupd : s'.recorders r'
            = ⟨insertOrAssign (s.recorders r').handles_to_inlined_callstack_ptrs_
                (toInt64 s.unique_debug_handle_) ⟨n.source_range, n.callstack⟩⟩ :=
          upd_same _ _ _
        rw [hupd]
        exact insertOrAssign_of_not_mem _ hmem
      have hfresh' : ∀ h ∈ handlesFrom s'.unique_debug_handle_ ops.length,
          h ∉ keys (s'.recorders r').handles_to_inlined_callstack_ptrs_ := by
        intro h hh
        rw [hc] at hh
        rw [hins, keys_append]
        intro hcontra
        rcases List.mem_append.mp hcontra with h1 | h2
        · exact hfresh h (List.mem_cons_of_mem _ hh) h1
        · simp only [keys, List.map_cons, List.map_nil, List.mem_singleton] at h2
          exact hnodup.1 (h2 ▸ hh)
      have hrun := ih s' hfresh'
        (by rw [hc]; exact hnodup.2)
      rw [hc] at hrun
      rw [hrun, hins, entriesFor, if_pos rfl, List.append_assoc]
      rfl
    · have hrecr : s'.recorders r = s.recorders r := upd_ne _ _ _ _ (Ne.symm hr)
      have hfresh' : ∀ h ∈ handlesFrom s'.unique_debug_handle_ ops.length,
          h ∉ keys (s'.recorders r).handles_to_inlined_callstack_ptrs_ := by
        intro h hh
        rw [hc] at hh
        rw [hrecr]
        exact hfresh h (List.mem_cons_of_mem _ hh)
      have hrun := ih s' hfresh'
        (by rw [hc]; exact hnodup.2)
      rw [hc] at hrun
      rw [hrun, hrecr, entriesFor, if_neg hr]

/-! ### Claim theorems -/

/-- C3: guard installation and destruction follow strict stack discipline: constructing a
guard saves the currently installed recorder reference and installs the new one; for
nested guards installing R1 then R2, the accessor returns R2 while both are open, R1
immediately after the inner guard closes, and the pre-R1 state after the outer guard
closes. -/
theorem guard_stack_discipline (s : SysState) (ctx : CtxId) (r1 r2 : RecorderId) :
    (guardConstruct s ctx r1).1.saved = s.slot ctx ∧
    getBackendDebugInfoRecorder (guardConstruct s ctx r1).2 ctx = some r1 ∧
    getBackendDebugInfoRecorder (guardConstruct (guardConstruct s ctx r1).2 ctx r2).2 ctx
      = some r2 ∧
    getBackendDebugInfoRecorder
        (guardDestruct (guardConstruct (guardConstruct s ctx r1).2 ctx r2).2 ctx
          (guardConstruct (guardConstruct s ctx r1).2 ctx r2).1) ctx = some r1 ∧
    getBackendDebugInfoRecorder
        (guardDestruct
          (guardDestruct (guardConstruct (guardConstruct s ctx r1).2 ctx r2).2 ctx
            (guardConstruct (guardConstruct s ctx r1).2 ctx r2).1) ctx
          (guardConstruct s ctx r1).1) ctx = s.slot ctx := by
  simp [guardConstruct, guardDestruct, getBackendDebugInfoRecorder, upd]

/-- C4: stopRecording is fallible: when finalizing any recorded entry fails, the failure
propagates to the caller as the reported error and is never absorbed or swallowed (the
result type has no termination outcome); when every entry finalizes, the accumulated map
is returned.  Finalization is this explicit call, not tied to a destructor (header,
lines 130-132). -/
theorem stopRecording_error_propagation (f : Finalizer)
    (recorder : BackendDebugInfoRecorder) :
    ((∀ p ∈ recorder.handles_to_inlined_callstack_ptrs_, f p = Except.ok ()) →
        stopRecording f recorder
          = Except.ok recorder.handles_to_inlined_callstack_ptrs_) ∧
    (∀ e, stopRecording f recorder = Except.error e →
        ∃ p ∈ recorder.handles_to_inlined_callstack_ptrs_, f p = Except.error e) ∧
    ((∃ p ∈ recorder.handles_to_inlined_callstack_ptrs_, ∃ e, f p = Except.error e) →
        ∃ e, stopRecording f recorder = Except.error e) := by
  refine ⟨?_, ?_, ?_⟩
  · intro hok
    rw [stopRecording, finalizeAll_ok f hok]
  · intro e he
    rw [stopRecording] at he
    cases hfa : finalizeAll f recorder.handles_to_inlined_callstack_ptrs_ with
    | ok u =>
      rw [hfa] at he
      simp at he
    | error e' =>
      rw [hfa] at he
      simp only [Except.error.injEq] at he
      subst he
      exact finalizeAll_error_mem f hfa
  · intro hex
    obtain ⟨e, hfa⟩ := finalizeAll_error_of_exists f hex
    exact ⟨e, by rw [stopRecording, hfa]⟩

/-- C5: issuing a handle for a node with no inlined call-stack association succeeds and
stores a pair whose call-stack component is the explicit empty marker `none`, never an
error or an unset value. -/
theorem null_callstack_stored_as_empty (s : SysState) (r : RecorderId) (n : Node)
    (hcs : n.callstack = none) :
    lookup (((getNextDebugHandle s r n).2.recorders r).handles_to_inlined_callstack_ptrs_)
        (getNextDebugHandle s r n).1
      = some ⟨n.source_range, none⟩ := by
  have hrec : (getNextDebugHandle s r n).2.recorders r
      = ⟨insertOrAssign (s.recorders r).handles_to_inlined_callstack_ptrs_
          (toInt64 s.unique_debug_handle_) ⟨n.source_range, n.callstack⟩⟩ :=
    upd_same _ _ _
  rw [hrec, hcs]
  exact lookup_insertOrAssign_self _ _ _

/-- C6: the accessor returns the recorder installed for the calling execution context when
a guard is active, and the explicit `none` value when no guard is active (the initial
state); absence of an active recorder is an ordinary value, not an error. -/
theorem accessor_current_or_none (s : SysState) (ctx ctx0 : CtxId) (r : RecorderId) :
    getBackendDebugInfoRecorder s ctx = s.slot ctx ∧
    getBackendDebugInfoRecorder (guardConstruct s ctx r).2 ctx = some r ∧
    getBackendDebugInfoRecorder initState ctx0 = none := by
  refine ⟨rfl, ?_, rfl⟩
  simp [guardConstruct, getBackendDebugInfoRecorder, upd]

/-- C7: the active-session slot is private to each execution context — installing or
closing a guard on one context leaves the accessor's result on every other context
unchanged (and touches no recorder's map) — and issuance on one recorder leaves every
other recorder's map unchanged. -/
theorem context_isolation (s : SysState) (ctx ctx' : CtxId) (r r' : RecorderId)
    (g : WithBackendDebugInfoRecorder) (n : Node)
    (hctx : ctx' ≠ ctx) (hr : r' ≠ r) :
    getBackendDebugInfoRecorder (guardConstruct s ctx r).2 ctx'
        = getBackendDebugInfoRecorder s ctx' ∧
    getBackendDebugInfoRecorder (guardDestruct s ctx g) ctx'
        = getBackendDebugInfoRecorder s ctx' ∧
    (guardConstruct s ctx r).2.recorders = s.recorders ∧
    (getNextDebugHandle s r n).2.recorders r' = s.recorders r' := by
  refine ⟨?_, ?_, rfl, ?_⟩
  · simp [guardConstruct, getBackendDebugInfoRecorder, upd, hctx]
  · simp [guardDestruct, getBackendDebugInfoRecorder, upd, hctx]
  · exact upd_ne _ _ _ _ hr

/-- C8: no issuance call checks the 64-bit counter for exhaustion: the handle is always
the int64 reading of the current counter and the counter always advances by one modulo
2^64; in particular at the top of the range the issuance still succeeds, returning
INT64_MAX, and the next issued handle wraps to INT64_MIN. -/
theorem counter_overflow_unchecked (s : SysState) (r : RecorderId) (n : Node) :
    (getNextDebugHandle s r n).1 = toInt64 s.unique_debug_handle_ ∧
    (getNextDebugHandle s r n).2.unique_debug_handle_
      = (s.unique_debug_handle_ + 1) % two64 ∧
    (s.unique_debug_handle_ = two63 - 1 →
      (getNextDebugHandle s r n).1 = (9223372036854775807 : Int) ∧
      (getNextDebugHandle (getNextDebugHandle s r n).2 r n).1
        = (-9223372036854775808 : Int)) := by
  refine ⟨rfl, rfl, ?_⟩
  intro hmax
  constructor
  · show toInt64 s.unique_debug_handle_ = _
    rw [hmax]
    norm_num [toInt64, two63, two64]
  · show toInt64 ((s.unique_debug_handle_ + 1) % two64) = _
    rw [hmax]
    norm_num [toInt64, two63, two64]

/-- C9: guard construction is non-throwing (declared `throw()` at line 142): for every
state, execution context and recorder it is a total operation with no failure outcome,
yielding a guard that saved the prior slot occupant and a state with the recorder
installed. -/
theorem guard_construct_nothrow (s : SysState) (ctx : CtxId) (r : RecorderId) :
    ∃ g : WithBackendDebugInfoRecorder, ∃ s' : SysState,
      guardConstruct s ctx r = (g, s') ∧ g.saved = s.slot ctx ∧
      getBackendDebugInfoRecorder s' ctx = some r := by
  refine ⟨⟨s.slot ctx⟩, _, rfl, rfl, ?_⟩
  simp [guardConstruct, getBackendDebugInfoRecorder, upd]

/-- C10: the only state effects of an issuance call are inserting one entry into the
calling recorder's own map and advancing the shared global counter: every execution
context's slot and every other recorder's state are unchanged (the node, passed by const
pointer, is a pure value here and is only read). -/
theorem issue_frame_effects (s : SysState) (r : RecorderId) (n : Node) :
    (getNextDebugHandle s r n).2.slot = s.slot ∧
    ((getNextDebugHandle s r n).2.recorders r).handles_to_inlined_callstack_ptrs_
      = insertOrAssign (s.recorders r).handles_to_inlined_callstack_ptrs_
          (toInt64 s.unique_debug_handle_) ⟨n.source_range, n.callstack⟩ ∧
    (getNextDebugHandle s r n).2.unique_debug_handle_
      = (s.unique_debug_handle_ + 1) % two64 ∧
    ∀ r' : RecorderId, r' ≠ r →
      (getNextDebugHandle s r n).2.recorders r' = s.recorders r' := by
  refine ⟨rfl, ?_, rfl, ?_⟩
  · exact congrArg BackendDebugInfoRecorder.handles_to_inlined_callstack_ptrs_
      (upd_same _ _ _)
  · intro r' hr'
    exact upd_ne _ _ _ _ hr'

/-- C1: for every sequence of issuance calls, across any number of recorder instances and
execution contexts, all returned debug handles are pairwise distinct (as long as the
64-bit counter is not exhausted, cf. C8), and every handle appearing as a key in some
recorder's map was produced by exactly one issuance call on that recorder. -/
theorem global_handle_uniqueness (ops : List (RecorderId × Node))
    (hlen : ops.length ≤ two64) :
    ((runIssues initState ops).1).Nodup ∧
    ∀ (r : RecorderId) (h : DebugHandleType),
      h ∈ keys
          (((runIssues initState ops).2.recorders r).handles_to_inlined_callstack_ptrs_)
        ↔ (handlesOn r ops (runIssues initState ops).1).count h = 1 := by
  have hfst : (runIssues initState ops).1 = handlesFrom 0 ops.length :=
    runIssues_fst ops initState
  have hnodup : (handlesFrom 0 ops.length).Nodup := handlesFrom_nodup (by simpa using hlen)
  constructor
  · rw [hfst]
    exact hnodup
  · intro r h
    have hmap := runIssues_map r ops initState
      (by intro h' hh'; simp [initState, keys]) hnodup
    have hmap' : ((runIssues initState ops).2.recorders r).handles_to_inlined_callstack_ptrs_
        = entriesFor r 0 ops := by
      simpa [initState] using hmap
    rw [hmap', hfst, handlesOn_entriesFor r ops 0]
    have hnd : (keys (entriesFor r 0 ops)).Nodup :=
      hnodup.sublist (entriesFor_keys_sublist r ops 0)
    constructor
    · intro hm
      exact List.count_eq_one_of_mem hnd hm
    · intro hc
      have hpos : 0 < (keys (entriesFor r 0 ops)).count h := by omega
      exact List.count_pos_iff.mp hpos

/-- C2: after a session in which one recorder issues handles for the nodes `ns` in order,
stopRecording (with finalization succeeding on every entry) returns a map whose entries
pair the issued handles exactly with the debug-info pairs read from the supplied nodes,
so its key list is exactly the list of issued handles. -/
theorem stopRecording_map_complete (r : RecorderId) (ns : List Node) (f : Finalizer)
    (hlen : ns.length ≤ two64)
    (hok : ∀ p ∈ ((singleSession r ns).2.recorders r).handles_to_inlined_callstack_ptrs_,
        f p = Except.ok ()) :
    stopRecording f ((singleSession r ns).2.recorders r)
      = Except.ok ((singleSession r ns).1.zip
          (ns.map fun n => (⟨n.source_range, n.callstack⟩ : DebugInfoPair))) ∧
    keys ((singleSession r ns).1.zip
          (ns.map fun n => (⟨n.source_range, n.callstack⟩ : DebugInfoPair)))
      = (singleSession r ns).1 := by
  have hlen' : (ns.map fun n => (r, n)).length = ns.length := List.length_map _ _
  have hnodup : (handlesFrom 0 ns.length).Nodup := handlesFrom_nodup (by simpa using hlen)
  have hfst : (singleSession r ns).1 = handlesFrom 0 ns.length := by
    have := runIssues_fst (ns.map fun n => (r, n)) initState
    simpa [singleSession, hlen'] using this
  have hmap : ((singleSession r ns).2.recorders r).handles_to_inlined_callstack_ptrs_
      = entriesFor r 0 (ns.map fun n => (r, n)) := by
    have := runIssues_map r (ns.map fun n => (r, n)) initState
      (by intro h' hh'; simp [initState, keys])
      (by rw [hlen']; exact hnodup)
    simpa [singleSession, initState] using this
  have hzip : entriesFor r 0 (ns.map fun n => (r, n))
      = (handlesFrom 0 ns.length).zip
          (ns.map fun n => (⟨n.source_range, n.callstack⟩ : DebugInfoPair)) :=
    entriesFor_single r ns 0
  constructor
  · simp only [stopRecording, finalizeAll_ok f hok]
    rw [hmap, hzip, hfst]
  · rw [hfst]
    simp only [keys]
    exact List.map_fst_zip _ _ (by simp [handlesFrom_length])

/-! ### Concrete sample data and witnesses -/

/-- A sample node without an inlined call-stack association. -/
def nodePlain : Node := ⟨⟨2⟩, none⟩

/-- A sample node with an inlined call-stack reference. -/
def nodeInlined : Node := ⟨⟨7⟩, some 5⟩

/-- A sample issuance trace touching two recorder instances. -/
def opsSample : List (RecorderId × Node) := [(0, nodePlain), (1, nodeInlined)]

/-- A finalizer that succeeds on every entry. -/
def finalizerOk : Finalizer := fun _ => Except.ok ()

/-- A finalizer that fails on every entry. -/
def finalizerFail : Finalizer := fun _ => Except.error "unresolved callstack"

/-- A recorder holding one recorded entry. -/
def recorderSample : BackendDebugInfoRecorder := ⟨[(0, ⟨⟨2⟩, none⟩)]⟩

/-- A state whose counter sits at INT64_MAX's bit pattern. -/
def stateAtMax : SysState where
  unique_debug_handle_ := two63 - 1
  recorders := fun _ => ⟨[]⟩
  slot := fun _ => none

theorem global_handle_uniqueness_witness :
    opsSample.length ≤ two64 ∧ ((runIssues initState opsSample).1).Nodup :=
  ⟨by decide, (global_handle_uniqueness opsSample (by decide)).1⟩

theorem stopRecording_map_complete_witness :
    [nodePlain].length ≤ two64 ∧
    stopRecording finalizerOk ((singleSession 0 [nodePlain]).2.recorders 0)
      = Except.ok ((singleSession 0 [nodePlain]).1.zip
          ([nodePlain].map fun n => (⟨n.source_range, n.callstack⟩ : DebugInfoPair))) :=
  ⟨by decide,
   (stopRecording_map_complete 0 [nodePlain] finalizerOk (by decide) (fun p _ => rfl)).1⟩

theorem stopRecording_error_propagation_witness :
    (∃ p ∈ recorderSample.handles_to_inlined_callstack_ptrs_, ∃ e,
        finalizerFail p = Except.error e) ∧
    (∃ e, stopRecording finalizerFail recorderSample = Except.error e) :=
  ⟨⟨(0, ⟨⟨2⟩, none⟩), by simp [recorderSample], "unresolved callstack", rfl⟩,
   (stopRecording_error_propagation finalizerFail recorderSample).2.2
     ⟨(0, ⟨⟨2⟩, none⟩), by simp [recorderSample], "unresolved callstack", rfl⟩⟩

theorem null_callstack_stored_as_empty_witness :
    nodePlain.callstack = none ∧
    lookup (((getNextDebugHandle initState 0 nodePlain).2.recorders
        0).handles_to_inlined_callstack_ptrs_) (getNextDebugHandle initState 0 nodePlain).1
      = some ⟨nodePlain.source_range, none⟩ :=
  ⟨rfl, null_callstack_stored_as_empty initState 0 nodePlain rfl⟩

theorem context_isolation_witness :
    ((1 : CtxId) ≠ 0) ∧ ((1 : RecorderId) ≠ 0) ∧
    getBackendDebugInfoRecorder (guardConstruct initState 0 0).2 1
      = getBackendDebugInfoRecorder initState 1 :=
  ⟨by decide, by decide,
   (context_isolation initState 0 1 0 1 ⟨none⟩ nodePlain (by decide) (by decide)).1⟩

theorem counter_overflow_unchecked_witness :
    stateAtMax.unique_debug_handle_ = two63 - 1 ∧
    (getNextDebugHandle stateAtMax 0 nodePlain).1 = (9223372036854775807 : Int) ∧
    (getNextDebugHandle (getNextDebugHandle stateAtMax 0 nodePlain).2 0 nodePlain).1
      = (-9223372036854775808 : Int) :=
  ⟨rfl, (counter_overflow_unchecked stateAtMax 0 nodePlain).2.2 rfl⟩

theorem issue_frame_effects_witness :
    ((1 : RecorderId) ≠ 0) ∧
    (getNextDebugHandle initState 0 nodePlain).2.recorders 1 = initState.recorders 1 :=
  ⟨by decide, (issue_frame_effects initState 0 nodePlain).2.2.2 1 (by decide)⟩

end TorchJit
